import Mathlib

/-!
# Verification of the redkit RESP server core

A shallow embedding, in Lean 4, of the redkit Redis-compatible server
framework (Go).  Byte strings (`[]byte` and `string` in Go, which are both
plain byte sequences) are modelled as `List Nat`; machine integers (`int`,
`int64`, both 64-bit) are modelled as `Int` with the explicit 64-bit range
checks that `strconv` performs; fallible Go functions return `Except`.

The embedding covers:
* the RESP value model (`RedisValue` in types.go),
* the streaming codec (`readLine`, `readValue`, `readBulkString`,
  `readArray`, `readCommand`, `writeValue` in the protocol file),
* the dispatch pipeline (`MiddlewareChain` and `handleCommand`),
* the default `PING` handler (commands.go),
* the idle sweeper (`checkIdleConnections` in server.go),
* graceful shutdown (`Shutdown` in server.go).
-/

/-! ## Byte-string helpers -/

/-- ASCII text as a byte list.  Go strings are byte sequences; every string
constant in the verified fragment is plain ASCII, where the Go bytes and the
Lean character codes coincide. -/
def txt (s : String) : List Nat := s.toList.map Char.toNat

/-! ## The RESP value model

Go's `RedisValue` is a struct `{Type; Str; Int; Bulk; Array}` whose `Type`
tag (`SimpleString | ErrorReply | Integer | BulkString | Array | Null`)
determines which payload field is meaningful (types.go documents this
invariant: "the tag alone determines which payload is defined").  The
faithful abstraction is a tagged variant.  The zero Go value
`RedisValue{}` has `Type = SimpleString` (iota 0) and `Str = ""`, i.e.
`.simpleString []`. -/

inductive RedisValue where
  | simpleString (s : List Nat)
  | errorReply (s : List Nat)
  | integer (i : Int)
  | bulkString (b : List Nat)
  | array (vs : List RedisValue)
  | null
deriving Repr

/-- The zero Go value `RedisValue{}`: `Type` is `SimpleString` (= iota 0)
and `Str` is `""`.  This is what a Go function with an unnamed
`RedisValue` result returns when a deferred `recover()` swallows a panic. -/
def zeroRedisValue : RedisValue := .simpleString []

/-- `Type == ErrorReply` test on a value. -/
def isErrorReply : RedisValue → Bool
  | .errorReply _ => true
  | _ => false

/-! ## Decimal formatting and parsing (strconv)

`strconv.Itoa` / `strconv.FormatInt(·, 10)` and `strconv.Atoi` (=
`ParseInt(s, 10, 0)` with 64-bit `int`).  `natDigits` is written with a
structural fuel so that it reduces in the kernel; `digitsOf` is the
well-founded reference version used in proofs, and the two are proved
equal. -/

def natDigitsAux : Nat → Nat → List Nat → List Nat
  | 0, _, acc => acc
  | fuel + 1, n, acc =>
    let d := 48 + n % 10
    if n / 10 = 0 then d :: acc else natDigitsAux fuel (n / 10) (d :: acc)

/-- ASCII decimal digits of a natural number (`strconv.Itoa` for `n ≥ 0`). -/
def natDigits (n : Nat) : List Nat := natDigitsAux (n + 1) n []

/-- Reference version of `natDigits`, by well-founded recursion. -/
def digitsOf (n : Nat) : List Nat :=
  if _h : n < 10 then [48 + n] else digitsOf (n / 10) ++ [48 + n % 10]
decreasing_by exact Nat.div_lt_self (by omega) (by omega)

/-- `strconv.FormatInt i 10`. -/
def formatInt (i : Int) : List Nat :=
  if i < 0 then 45 :: natDigits (-i).toNat else natDigits i.toNat

/-- Digit-accumulating loop of `strconv.ParseInt`: consumes ASCII digits,
fails on any non-digit byte. -/
def parseDigitsAux : Nat → List Nat → Option Nat
  | acc, [] => some acc
  | acc, b :: bs =>
    if 48 ≤ b ∧ b ≤ 57 then parseDigitsAux (acc * 10 + (b - 48)) bs else none

/-- Digit-run parser: at least one byte, all ASCII digits. -/
def parseDigits (s : List Nat) : Option Nat :=
  match s with
  | [] => none
  | _ => parseDigitsAux 0 s

def int64MaxNat : Nat := 9223372036854775807

/-- `strconv.Atoi` on a 64-bit platform: optional sign, decimal digits,
64-bit signed range check (out-of-range input is an error, exactly like
`strconv.ErrRange`). -/
def atoi (s : List Nat) : Option Int :=
  match s with
  | [] => none
  | b :: rest =>
    if b = 43 then
      match parseDigits rest with
      | none => none
      | some n => if n ≤ int64MaxNat then some (n : Int) else none
    else if b = 45 then
      match parseDigits rest with
      | none => none
      | some n => if n ≤ int64MaxNat + 1 then some (-(n : Int)) else none
    else
      match parseDigits s with
      | none => none
      | some n => if n ≤ int64MaxNat then some (n : Int) else none

/-! ## The codec: reading

`readLine` mirrors the Go function built on `bufio.Reader.ReadBytes('\n')`:
it takes bytes up to and including the first LF (an input containing no LF
is an I/O error — the Go reader would block or hit EOF), then strips a
trailing CRLF, or else a trailing LF. -/

inductive RespErr where
  | eof                      -- io.EOF / unexpected end of input
  | outOfFuel                -- artifact of the fuel-indexed embedding
  | emptyLine                -- "empty line"
  | invalidIndicator         -- "invalid RESP protocol indicator"
  | invalidInteger           -- "invalid integer"
  | invalidBulkSize          -- "invalid bulk string size" (Atoi failed)
  | negativeBulkSize         -- "invalid bulk string size: %d" (negative, not -1)
  | bulkTooLarge             -- "bulk string too large"
  | invalidArraySize         -- "invalid array size" (Atoi failed)
  | negativeArraySize        -- "invalid array size: %d" (negative, not -1)
  | arrayTooLarge            -- "array too large"
  | notArray                 -- "expected array, got %v"
  | emptyCommandArray        -- "empty command array"
  | invalidCommandNameType   -- "invalid command name type"
  | invalidArgumentType      -- "invalid argument type at index %d"
deriving DecidableEq, Repr

/-- Which errors the spec classifies as OversizeFrame. -/
def RespErr.isOversize : RespErr → Bool
  | .bulkTooLarge => true
  | .arrayTooLarge => true
  | _ => false

/-- Split the input at the first LF byte; the returned line includes the
LF, as `bufio.Reader.ReadBytes` does. -/
def splitAtLF : List Nat → Option (List Nat × List Nat)
  | [] => none
  | b :: bs =>
    if b = 10 then some ([10], bs)
    else
      match splitAtLF bs with
      | none => none
      | some (line, rest) => some (b :: line, rest)

/-- The CRLF-stripping of Go `readLine`: drop a trailing `"\r\n"`, else a
trailing `"\n"` (the indexing mirrors `line[len(line)-2] == '\r'`). -/
def stripLineEnd (line : List Nat) : List Nat :=
  if 2 ≤ line.length ∧ line.getD (line.length - 2) 0 = 13 then
    line.take (line.length - 2)
  else if 1 ≤ line.length ∧ line.getD (line.length - 1) 0 = 10 then
    line.take (line.length - 1)
  else line

/-- `Connection.readLine`: one `ReadBytes('\n')` line with its terminator
stripped. -/
def readLine (input : List Nat) : Except RespErr (List Nat × List Nat) :=
  match splitAtLF input with
  | none => .error .eof
  | some (line, rest) => .ok (stripLineEnd line, rest)

def maxBulkStringSize : Int := 536870912    -- 512 * 1024 * 1024
def maxArraySize : Int := 1048576           -- 1024 * 1024

/-- `Connection.readBulkString`: parse the declared size from the header
suffix, handle the `-1` Null sentinel, reject other negatives, enforce the
512 MiB cap, then read `size + 2` bytes and keep the first `size` of them
(the CRLF terminator bytes are consumed but never inspected). -/
def readBulkString (sizeBytes : List Nat) (input : List Nat) :
    Except RespErr (RedisValue × List Nat) :=
  match atoi sizeBytes with
  | none => .error .invalidBulkSize
  | some size =>
    if size = -1 then .ok (.null, input)
    else if size < 0 then .error .negativeBulkSize
    else if size > maxBulkStringSize then .error .bulkTooLarge
    else if input.length < size.toNat + 2 then .error .eof
    else .ok (.bulkString (input.take size.toNat), input.drop (size.toNat + 2))

/-- The element loop of `readArray`: read `n` values with `readElem`,
aborting on the first error. -/
def readListWith (readElem : List Nat → Except RespErr (RedisValue × List Nat)) :
    Nat → List Nat → Except RespErr (List RedisValue × List Nat)
  | 0, input => .ok ([], input)
  | n + 1, input =>
    match readElem input with
    | .error e => .error e
    | .ok (v, rest) =>
      match readListWith readElem n rest with
      | .error e => .error e
      | .ok (vs, rest2) => .ok (v :: vs, rest2)

/-- `Connection.readArray`: parse the declared size, handle `-1` as Null,
reject other negatives, enforce the 1,048,576-element cap, then read that
many values.  The element reader is a parameter because in Go it is the
recursive call `c.readValue()`. -/
def readArray (readElem : List Nat → Except RespErr (RedisValue × List Nat))
    (sizeBytes : List Nat) (input : List Nat) :
    Except RespErr (RedisValue × List Nat) :=
  match atoi sizeBytes with
  | none => .error .invalidArraySize
  | some size =>
    if size = -1 then .ok (.null, input)
    else if size < 0 then .error .negativeArraySize
    else if size > maxArraySize then .error .arrayTooLarge
    else
      match readListWith readElem size.toNat input with
      | .error e => .error e
      | .ok (vs, rest) => .ok (.array vs, rest)

/-- The `switch line[0]` body of `Connection.readValue`: dispatch on the
type indicator byte (`'+' '-' ':' '$' '*'` = 43 45 58 36 42).  The reader
used for array elements is a parameter because in Go it is the recursive
call `c.readValue()`. -/
def dispatchLine (readElem : List Nat → Except RespErr (RedisValue × List Nat))
    (line rest : List Nat) : Except RespErr (RedisValue × List Nat) :=
  match line with
  | [] => .error .emptyLine
  | b :: body =>
    if b = 43 then .ok (.simpleString body, rest)
    else if b = 45 then .ok (.errorReply body, rest)
    else if b = 58 then
      match atoi body with
      | none => .error .invalidInteger
      | some n => .ok (.integer n, rest)
    else if b = 36 then readBulkString body rest
    else if b = 42 then readArray readElem body rest
    else .error .invalidIndicator

/-- `Connection.readValue`: read one line, then dispatch on its indicator
byte.  The `fuel` argument bounds the nesting depth of the recursion (Go
recurses directly on the call stack); it is consumed only when descending
into an array. -/
def readValue : Nat → List Nat → Except RespErr (RedisValue × List Nat)
  | 0 => fun _ => .error .outOfFuel
  | fuel + 1 => fun input =>
    match readLine input with
    | .error e => .error e
    | .ok (line, rest) => dispatchLine (readValue fuel) line rest

/-- Top-level entry: any successfully parsed frame nests at most one level
per input byte, so `input.length + 1` fuel never runs out. -/
def readValueTop (input : List Nat) : Except RespErr (RedisValue × List Nat) :=
  readValue (input.length + 1) input

/-! ## The codec: writing

`Connection.writeValue` serialises a value in RESP format.  The Go code
emits through a buffered writer; concatenation of the emitted byte chunks
models it. -/

mutual

/-- `Connection.writeValue`. -/
def writeValue : RedisValue → List Nat
  | .simpleString s => 43 :: (s ++ [13, 10])
  | .errorReply s => 45 :: (s ++ [13, 10])
  | .integer i => 58 :: (formatInt i ++ [13, 10])
  | .bulkString b => 36 :: (natDigits b.length ++ [13, 10] ++ b ++ [13, 10])
  | .array vs => 42 :: (natDigits vs.length ++ [13, 10] ++ writeList vs)
  | .null => [36, 45, 49, 13, 10]

/-- The element loop of the `Array` case of `writeValue`. -/
def writeList : List RedisValue → List Nat
  | [] => []
  | v :: vs => writeValue v ++ writeList vs

end

/-! ## Well-formedness predicates on values -/

mutual

/-- The hypothesis of the round-trip claim exactly as stated: the
SimpleString and Error text leaves contain no CR and no LF. -/
def textLeavesClean : RedisValue → Bool
  | .simpleString s => s.all fun b => decide (b ≠ 13) && decide (b ≠ 10)
  | .errorReply s => s.all fun b => decide (b ≠ 13) && decide (b ≠ 10)
  | .integer _ => true
  | .bulkString _ => true
  | .array vs => textLeavesCleanList vs
  | .null => true

def textLeavesCleanList : List RedisValue → Bool
  | [] => true
  | v :: vs => textLeavesClean v && textLeavesCleanList vs

end

mutual

/-- Well-formed value: clean text leaves, `Integer` payloads in the 64-bit
range (this encodes the Go `int64` field type, not an extra restriction),
bulk payloads within the 512 MiB read cap, arrays within the
1,048,576-element read cap. -/
def wfValue : RedisValue → Bool
  | .simpleString s => s.all fun b => decide (b ≠ 13) && decide (b ≠ 10)
  | .errorReply s => s.all fun b => decide (b ≠ 13) && decide (b ≠ 10)
  | .integer i => decide (-(2 ^ 63) ≤ i) && decide (i < 2 ^ 63)
  | .bulkString b => decide ((b.length : Int) ≤ maxBulkStringSize)
  | .array vs => decide ((vs.length : Int) ≤ maxArraySize) && wfList vs
  | .null => true

def wfList : List RedisValue → Bool
  | [] => true
  | v :: vs => wfValue v && wfList vs

end

mutual

/-- Nesting depth of a value: the fuel needed by `readValue` to parse it. -/
def depthV : RedisValue → Nat
  | .array vs => depthL vs + 1
  | _ => 1

def depthL : List RedisValue → Nat
  | [] => 0
  | v :: vs => max (depthV v) (depthL vs)

end

/-! ## Commands

`readCommand` reads one value and requires an Array of length ≥ 1 whose
elements are all SimpleString or BulkString; the first element's text is
the command name, the rest project to the args. -/

structure Command where
  Name : List Nat
  Args : List (List Nat)
  Raw : List RedisValue
deriving Repr

/-- The text of a SimpleString or BulkString element (the two cases of the
`switch` in `readCommand`); `none` for every other type. -/
def textOf : RedisValue → Option (List Nat)
  | .bulkString b => some b
  | .simpleString s => some s
  | _ => none

/-- The argument loop of `readCommand` (indices 1..): project each element
to text, failing on the first element of any other type. -/
def argsOf : List RedisValue → Except RespErr (List (List Nat))
  | [] => .ok []
  | v :: vs =>
    match textOf v with
    | none => .error .invalidArgumentType
    | some t =>
      match argsOf vs with
      | .error e => .error e
      | .ok ts => .ok (t :: ts)

/-- The value-to-command part of `readCommand` (everything after the
`c.readValue()` call): require an Array, reject the empty array, build
`Name`, `Args` and `Raw`. -/
def commandOfValue (v : RedisValue) : Except RespErr Command :=
  match v with
  | .array [] => .error .emptyCommandArray
  | .array (v0 :: rest) =>
    match textOf v0 with
    | none => .error .invalidCommandNameType
    | some name =>
      match argsOf rest with
      | .error e => .error e
      | .ok args => .ok { Name := name, Args := args, Raw := v0 :: rest }
  | _ => .error .notArray

/-- Did an `Except`-returning operation succeed (`err == nil` in Go)? -/
def exceptIsOk : Except RespErr (Command × List Nat) → Bool
  | .ok _ => true
  | .error _ => false

/-- `Connection.readCommand`: read one value, then convert it. -/
def readCommand (input : List Nat) : Except RespErr (Command × List Nat) :=
  match readValueTop input with
  | .error e => .error e
  | .ok (v, rest) =>
    match commandOfValue v with
    | .error e => .error e
    | .ok cmd => .ok (cmd, rest)

/-! ## Connections (connection.go)

Only the fields the verified claims inspect are modelled: the atomic
state, the `lastUsed` timestamp (as an integer instant), and the
`closeOnce` latch.  The socket, reader/writer and contexts live in the
I/O layer that the embedding abstracts. -/

inductive ConnState where
  | new | active | idle | closed
deriving DecidableEq, Repr

structure Connection where
  state : ConnState
  lastUsed : Int
  closeDone : Bool
deriving DecidableEq, Repr

/-- `Connection.Close`: through the `closeOnce` latch, set the state to
Closed (cancelling the task and closing the socket are I/O effects); a
second call is a no-op. -/
def Connection.close (c : Connection) : Connection :=
  if c.closeDone then c else { c with state := .closed, closeDone := true }

/-! ## The idle sweeper (server.go `checkIdleConnections`)

The Go code snapshots the registry, collects every connection whose state
is `StateActive` and whose `lastUsed` is before `now - IdleTimeout`, then
calls `setState(StateIdle)` on each and logs it.  Since eligibility
depends only on each connection's own fields, the snapshot-then-mark
two-phase loop is the pointwise map below. -/

def checkIdleConnections (idleTimeout now : Int) (conns : List Connection) :
    List Connection :=
  if idleTimeout ≤ 0 then conns   -- idle timeout disabled
  else
    conns.map fun c =>
      if c.state = .active ∧ c.lastUsed < now - idleTimeout then
        { c with state := .idle }
      else c

/-! ## The dispatch pipeline

Go handlers and middlewares return a `RedisValue` but may panic;
`Except GoPanic RedisValue` models that, with `.error` standing for a
propagating panic carrying its message. -/

/-- The payload of a Go `panic` (the `interface{}` value, as text). -/
abbrev GoPanic := List Nat

/-- `CommandHandler.Handle`. -/
abbrev CommandHandler := Connection → Command → Except GoPanic RedisValue

/-- `Middleware.Handle`. -/
abbrev Middleware := Connection → Command → CommandHandler → Except GoPanic RedisValue

structure MiddlewareChain where
  middlewares : List Middleware

/-- `NewMiddlewareChain`. -/
def NewMiddlewareChain : MiddlewareChain := ⟨[]⟩

/-- `MiddlewareChain.Add` (append; in Go it mutates and returns the
receiver). -/
def MiddlewareChain.Add (mc : MiddlewareChain) (m : Middleware) : MiddlewareChain :=
  ⟨mc.middlewares ++ [m]⟩

/-- The `wrappedHandler` struct: a middleware packaged with its `next`
handler. -/
def wrapMiddleware (mw : Middleware) (next : CommandHandler) : CommandHandler :=
  fun conn cmd => mw conn cmd next

/-- `MiddlewareChain.Execute`: with no middlewares call the handler
directly; otherwise build the wrapped-handler chain from the last
middleware inwards (the Go `for i := len-1; i >= 0; i--` loop is exactly a
right fold) and invoke it. -/
def MiddlewareChain.Execute (mc : MiddlewareChain) (conn : Connection)
    (cmd : Command) (handler : CommandHandler) : Except GoPanic RedisValue :=
  match mc.middlewares with
  | [] => handler conn cmd
  | m :: ms => ((m :: ms).foldr wrapMiddleware handler) conn cmd

/-- A chain built by `Add`-ing the given middlewares, in order, onto
`NewMiddlewareChain`. -/
def mkChain (ms : List Middleware) : MiddlewareChain :=
  ms.foldl MiddlewareChain.Add NewMiddlewareChain

/-- Upper-casing of a command name (`strings.ToUpper`; command names are
ASCII). -/
def toUpperAscii (s : List Nat) : List Nat :=
  s.map fun b => if 97 ≤ b ∧ b ≤ 122 then b - 32 else b

/-- Registry lookup: the `handlers` map read `s.handlers[ToUpper(name)]`,
as an association list. -/
def lookupHandler (handlers : List (List Nat × CommandHandler)) (name : List Nat) :
    Option CommandHandler :=
  match handlers with
  | [] => none
  | (k, h) :: rest => if k = name then some h else lookupHandler rest name

/-- A log record emitted by dispatch:
`PANIC in command handler '<name>': <payload>`. -/
inductive LogEvent where
  | panicLogged (name : List Nat) (payload : List Nat)
deriving Repr

/-- The body of `Server.handleCommand` (everything inside the deferred
recover): the empty-command check (`cmd` is never nil when called from the
connection loop), the registry lookup, and execution through the
middleware chain.  A panic in the handler or a middleware propagates out
as `.error`. -/
def handleCommandBody (handlers : List (List Nat × CommandHandler))
    (chain : MiddlewareChain) (conn : Connection) (cmd : Command) :
    Except GoPanic RedisValue :=
  if cmd.Name = [] then .ok (.errorReply (txt "ERR empty command"))
  else
    match lookupHandler handlers (toUpperAscii cmd.Name) with
    | none => .ok (.errorReply (txt "ERR unknown command '" ++ cmd.Name ++ txt "'"))
    | some h => chain.Execute conn cmd h

/-- `Server.handleCommand` with its deferred `recover()`: a panic is
caught and logged with the command name, and — because the function's
result is an unnamed return value — the function then returns the zero
`RedisValue` (`.simpleString []`), not anything the recover block builds.
The second component collects the log records emitted. -/
def handleCommand (handlers : List (List Nat × CommandHandler))
    (chain : MiddlewareChain) (conn : Connection) (cmd : Command) :
    RedisValue × List LogEvent :=
  match handleCommandBody handlers chain conn cmd with
  | .ok v => (v, [])
  | .error p => (zeroRedisValue, [.panicLogged cmd.Name p])

/-- Outcome of one iteration of the connection loop
(`handleConnectionInternal`): either the read failed — the loop returns,
the deferred `conn.Close()` runs, and no reply is written — or a command
was dispatched and its response written back, with the loop continuing on
the remaining input. -/
inductive StepResult where
  | closed (e : RespErr)
  | replied (resp : RedisValue) (logs : List LogEvent) (rest : List Nat)

/-- Is the connection still open after the step (a reply was written)? -/
def StepResult.isReplied : StepResult → Bool
  | .replied _ _ _ => true
  | _ => false

/-- One iteration of the connection loop: `readCommand`, then
`handleCommand`, then write the response (the write itself is I/O and is
assumed to succeed). -/
def serveStep (handlers : List (List Nat × CommandHandler))
    (chain : MiddlewareChain) (conn : Connection) (input : List Nat) : StepResult :=
  match readCommand input with
  | .error e => .closed e
  | .ok (cmd, rest) =>
    match handleCommand handlers chain conn cmd with
    | (v, logs) => .replied v logs rest

/-! ## The default PING handler (commands.go, `registerDefaultHandlers`)

`PING`: zero args replies SimpleString "PONG"; otherwise it replies a
BulkString echoing `cmd.Args[0]`. -/

def pingHandler (_conn : Connection) (cmd : Command) : RedisValue :=
  match cmd.Args with
  | [] => .simpleString (txt "PONG")
  | a :: _ => .bulkString a

/-! ## Graceful shutdown (server.go `Shutdown`)

The state a shutdown touches: the in-shutdown flag, the listener (absent
until `Listen`, then open, then closed — `net.Listener.Close` on an
already-closed listener returns an error, and `Shutdown` propagates it
with an early return), the registered connections, the count of registered
hooks and of hook executions so far, and whether the connection tasks have
all returned (`wg.Wait`).  `tasksFinishInTime` stands for "every task
returns before the caller's deadline elapses". -/

inductive ListenerState where
  | noListener | opened | closed
deriving DecidableEq, Repr

structure GoServer where
  inShutdown : Bool
  listener : ListenerState
  activeConns : List Connection
  hooks : Nat
  hookRuns : Nat
  tasksDone : Bool
deriving DecidableEq, Repr

inductive ShutdownResult where
  | ok | listenerCloseError | deadlineExceeded
deriving DecidableEq, Repr

/-- The tail of `Shutdown` after the listener step: close every registered
connection (each through its once-latch; socket-close I/O errors are
assumed absent), run every registered hook, then wait for the tasks
subject to the caller's deadline. -/
def shutdownConnsHooksWait (s : GoServer) (tasksFinishInTime : Bool) :
    ShutdownResult × GoServer :=
  let s1 := { s with activeConns := s.activeConns.map Connection.close }
  let s2 := { s1 with hookRuns := s1.hookRuns + s1.hooks }
  if s2.tasksDone then (.ok, s2)
  else if tasksFinishInTime then (.ok, { s2 with tasksDone := true })
  else (.deadlineExceeded, s2)

/-- `Server.Shutdown`: set the in-shutdown flag and cancel the root
context; if a listener exists, close it — propagating the error (and
returning early) when it was already closed; then close connections, run
hooks, and wait. -/
def GoServer.Shutdown (s : GoServer) (tasksFinishInTime : Bool) :
    ShutdownResult × GoServer :=
  let s0 := { s with inShutdown := true }
  match s0.listener with
  | .closed => (.listenerCloseError, s0)
  | .opened => shutdownConnsHooksWait { s0 with listener := .closed } tasksFinishInTime
  | .noListener => shutdownConnsHooksWait s0 tasksFinishInTime

/-! ## Concrete fixtures used by witnesses and counterexamples -/

/-- A well-typed Go value one byte over the bulk cap: `writeValue`
serialises it, but `readValue` rejects it. -/
def c1CexValue : RedisValue := .bulkString (List.replicate 536870913 97)

/-- A sample connection. -/
def conn0 : Connection := { state := .active, lastUsed := 0, closeDone := false }

/-- A handler that panics unconditionally. -/
def panickingHandler : CommandHandler := fun _ _ => .error (txt "boom")

/-- A registry with the panicking handler registered under `BOOM`. -/
def c2Handlers : List (List Nat × CommandHandler) := [(txt "BOOM", panickingHandler)]

/-- The parsed command `BOOM` (no args). -/
def c2Cmd : Command :=
  { Name := txt "BOOM", Args := [], Raw := [.bulkString (txt "BOOM")] }

/-- A server that was created but never bound a listener, with one
registered shutdown hook, no connections, and no outstanding tasks. -/
def c9Server : GoServer :=
  { inShutdown := false, listener := .noListener, activeConns := [],
    hooks := 1, hookRuns := 0, tasksDone := true }

/-- A served server: bound (open) listener, one active connection, two
hooks, tasks still running. -/
def c9ServedServer : GoServer :=
  { inShutdown := false, listener := .opened,
    activeConns := [{ state := .active, lastUsed := 5, closeDone := false }],
    hooks := 2, hookRuns := 0, tasksDone := false }

/-- A sample round-trip value touching every constructor: the array
`[SimpleString "OK", BulkString "", Null, Integer -42, Array [],
Error "ERR x", BulkString "a\r\nb"]` (bulk payloads are binary-safe, so
the CR LF bytes 13 10 inside the last one are legal). -/
def rtSample : RedisValue :=
  .array [.simpleString [79, 75], .bulkString [], .null, .integer (-42),
          .array [], .errorReply [69, 82, 82, 32, 120], .bulkString [97, 13, 10, 98]]

/-! # Theorems

## Decimal formatting and parsing -/

theorem parseDigitsAux_append (xs ys : List Nat) : ∀ a : Nat,
    parseDigitsAux a (xs ++ ys) =
      match parseDigitsAux a xs with
      | none => none
      | some c => parseDigitsAux c ys := by
  induction xs with
  | nil => intro a; simp [parseDigitsAux]
  | cons b bs ih =>
    intro a
    by_cases h : 48 ≤ b ∧ b ≤ 57
    · simp only [List.cons_append, parseDigitsAux, if_pos h]
      exact ih _
    · simp only [List.cons_append, parseDigitsAux, if_neg h]

theorem digitsOf_ne_nil (n : Nat) : digitsOf n ≠ [] := by
  rw [digitsOf]
  split_ifs <;> simp

theorem digitsOf_bounds (n : Nat) : ∀ b ∈ digitsOf n, 48 ≤ b ∧ b ≤ 57 := by
  induction n using Nat.strong_induction_on with
  | _ n ih =>
    rw [digitsOf]
    split_ifs with h
    · intro b hb
      simp only [List.mem_singleton] at hb
      omega
    · intro b hb
      rw [List.mem_append] at hb
      cases hb with
      | inl hmem => exact ih (n / 10) (Nat.div_lt_self (by omega) (by omega)) b hmem
      | inr hmem =>
        simp only [List.mem_singleton] at hmem
        omega

theorem digitsOf_head (n : Nat) : ∃ d ds, digitsOf n = d :: ds ∧ 48 ≤ d ∧ d ≤ 57 := by
  cases hd : digitsOf n with
  | nil => exact absurd hd (digitsOf_ne_nil n)
  | cons d ds =>
    have hb := digitsOf_bounds n d (by rw [hd]; exact List.mem_cons_self d ds)
    exact ⟨d, ds, rfl, hb.1, hb.2⟩

theorem parseDigitsAux_digitsOf (n : Nat) : ∀ a : Nat,
    parseDigitsAux a (digitsOf n) = some (a * 10 ^ (digitsOf n).length + n) := by
  induction n using Nat.strong_induction_on with
  | _ n ih =>
    intro a
    rw [digitsOf]
    split_ifs with h
    · have hcond : 48 ≤ 48 + n ∧ 48 + n ≤ 57 := by omega
      simp only [parseDigitsAux, if_pos hcond, List.length_singleton, pow_one]
      congr 1
      omega
    · rw [parseDigitsAux_append]
      rw [ih (n / 10) (Nat.div_lt_self (by omega) (by omega)) a]
      have hcond : 48 ≤ 48 + n % 10 ∧ 48 + n % 10 ≤ 57 := by omega
      simp only [parseDigitsAux, if_pos hcond, List.length_append,
        List.length_singleton]
      congr 1
      have hdm : n / 10 * 10 + n % 10 = n := by omega
      have hp : 10 ^ ((digitsOf (n / 10)).length + 1) =
          10 ^ (digitsOf (n / 10)).length * 10 := pow_succ 10 _
      rw [hp]
      calc (a * 10 ^ (digitsOf (n / 10)).length + n / 10) * 10 + (48 + n % 10 - 48)
          = a * (10 ^ (digitsOf (n / 10)).length * 10) + (n / 10 * 10 + n % 10) := by
            rw [Nat.add_sub_cancel_left]; ring
        _ = a * (10 ^ (digitsOf (n / 10)).length * 10) + n := by rw [hdm]

theorem parseDigits_digitsOf (n : Nat) : parseDigits (digitsOf n) = some n := by
  obtain ⟨d, ds, hd, _, _⟩ := digitsOf_head n
  have h := parseDigitsAux_digitsOf n 0
  rw [hd] at h ⊢
  simpa [parseDigits] using h

theorem natDigitsAux_eq : ∀ (fuel n : Nat) (acc : List Nat), n < 10 ^ fuel → 1 ≤ fuel →
    natDigitsAux fuel n acc = digitsOf n ++ acc := by
  intro fuel
  induction fuel with
  | zero => intro n acc _ h1; omega
  | succ fuel ih =>
    intro n acc h _
    simp only [natDigitsAux]
    by_cases h10 : n / 10 = 0
    · have hn : n < 10 := by omega
      rw [if_pos h10, digitsOf, dif_pos hn]
      have : n % 10 = n := Nat.mod_eq_of_lt hn
      simp [this]
    · have hn : ¬ n < 10 := by omega
      rw [if_neg h10]
      have hfuel1 : 1 ≤ fuel := by
        rcases Nat.eq_zero_or_pos fuel with h0 | h1
        · subst h0; simp at h; omega
        · exact h1
      have hdiv : n / 10 < 10 ^ fuel := by
        rw [Nat.div_lt_iff_lt_mul (by omega : 0 < 10)]
        calc n < 10 ^ (fuel + 1) := h
          _ = 10 ^ fuel * 10 := pow_succ 10 fuel
      rw [ih (n / 10) ((48 + n % 10) :: acc) hdiv hfuel1]
      conv_rhs => rw [digitsOf]
      rw [dif_neg hn]
      simp

theorem natDigits_eq_digitsOf (n : Nat) : natDigits n = digitsOf n := by
  have h : n < 10 ^ (n + 1) :=
    lt_of_lt_of_le (Nat.lt_pow_self (by norm_num) n)
      (Nat.pow_le_pow_right (by norm_num) (Nat.le_succ n))
  simpa [natDigits] using natDigitsAux_eq (n + 1) n [] h (by omega)

theorem natDigits_head (n : Nat) :
    ∃ d ds, natDigits n = d :: ds ∧ 48 ≤ d ∧ d ≤ 57 := by
  rw [natDigits_eq_digitsOf]; exact digitsOf_head n

theorem parseDigits_natDigits (n : Nat) : parseDigits (natDigits n) = some n := by
  rw [natDigits_eq_digitsOf]; exact parseDigits_digitsOf n

theorem natDigits_bounds (n : Nat) : ∀ b ∈ natDigits n, 48 ≤ b ∧ b ≤ 57 := by
  rw [natDigits_eq_digitsOf]; exact digitsOf_bounds n

theorem natDigits_not_lf (n : Nat) : 10 ∉ natDigits n := by
  intro h
  have := natDigits_bounds n 10 h
  omega

theorem atoi_natDigits (n : Nat) (h : n ≤ int64MaxNat) :
    atoi (natDigits n) = some (n : Int) := by
  obtain ⟨d, ds, hd, h48, h57⟩ := natDigits_head n
  have hparse : parseDigits (d :: ds) = some n := by
    rw [← hd]; exact parseDigits_natDigits n
  rw [hd]
  simp only [atoi]
  rw [if_neg (by omega : ¬ d = 43), if_neg (by omega : ¬ d = 45), hparse]
  simp [h]

theorem atoi_negNatDigits (k : Nat) (h : k ≤ int64MaxNat + 1) :
    atoi (45 :: natDigits k) = some (-(k : Int)) := by
  simp only [atoi]
  simp [parseDigits_natDigits k, h]

theorem formatInt_not_lf (i : Int) : 10 ∉ formatInt i := by
  rw [formatInt]
  split_ifs with h
  · intro hmem
    rcases List.mem_cons.mp hmem with h45 | hd
    · omega
    · exact natDigits_not_lf _ hd
  · exact natDigits_not_lf _

theorem atoi_formatInt (i : Int) (h1 : -(2 ^ 63) ≤ i) (h2 : i < 2 ^ 63) :
    atoi (formatInt i) = some i := by
  have h1n : -9223372036854775808 ≤ i := by norm_num at h1; exact h1
  have h2n : i < 9223372036854775808 := by norm_num at h2; exact h2
  by_cases hneg : i < 0
  · rw [formatInt, if_pos hneg]
    have hk : (-i).toNat ≤ int64MaxNat + 1 := by
      rw [int64MaxNat]; omega
    rw [atoi_negNatDigits _ hk]
    have : ((-i).toNat : Int) = -i := Int.toNat_of_nonneg (by omega)
    rw [this]
    simp
  · rw [formatInt, if_neg hneg]
    have hk : i.toNat ≤ int64MaxNat := by
      rw [int64MaxNat]; omega
    rw [atoi_natDigits _ hk]
    congr 1
    exact Int.toNat_of_nonneg (by omega)

/-! ## Line reading -/

theorem splitAtLF_append (l rest : List Nat) (h : 10 ∉ l) :
    splitAtLF (l ++ 10 :: rest) = some (l ++ [10], rest) := by
  induction l with
  | nil => simp [splitAtLF]
  | cons b bs ih =>
    have hb : ¬ b = 10 := fun hb => h (by rw [hb]; exact List.mem_cons_self 10 bs)
    have hbs : 10 ∉ bs := fun hm => h (List.mem_cons_of_mem _ hm)
    simp only [List.cons_append, splitAtLF, if_neg hb, List.append_eq]
    rw [ih hbs]

theorem stripLineEnd_crlf (l : List Nat) : stripLineEnd (l ++ [13, 10]) = l := by
  have hlen : (l ++ [13, 10]).length = l.length + 2 := by simp
  have hget : (l ++ [13, 10]).getD ((l ++ [13, 10]).length - 2) 0 = 13 := by
    rw [hlen, Nat.add_sub_cancel,
      List.getD_append_right _ _ _ _ (Nat.le_refl _)]
    simp
  rw [stripLineEnd, if_pos ⟨by rw [hlen]; omega, hget⟩, hlen, Nat.add_sub_cancel]
  exact List.take_left l [13, 10]

theorem readLine_crlf (l rest : List Nat) (h : 10 ∉ l) :
    readLine (l ++ 13 :: 10 :: rest) = .ok (l, rest) := by
  have h13 : 10 ∉ l ++ [13] := by
    intro hm
    rcases List.mem_append.mp hm with hm | hm
    · exact h hm
    · simp at hm
  have heq : l ++ 13 :: 10 :: rest = (l ++ [13]) ++ 10 :: rest := by simp
  rw [readLine, heq, splitAtLF_append _ _ h13]
  have heq2 : (l ++ [13]) ++ [10] = l ++ [13, 10] := by simp
  simp only [heq2, stripLineEnd_crlf]

/-! ## Bulk strings -/

/-- Successful bulk-string read: within the cap and with at least `N + 2`
bytes available, the first `N` bytes are the payload and the two bytes
after them are consumed unconditionally. -/
theorem readBulkString_ok (N : Nat) (body tail : List Nat) (b1 b2 : Nat)
    (hlen : body.length = N) (hcap : (N : Int) ≤ maxBulkStringSize) :
    readBulkString (natDigits N) (body ++ b1 :: b2 :: tail) =
      .ok (.bulkString body, tail) := by
  rw [maxBulkStringSize] at hcap
  have hN63 : N ≤ int64MaxNat := by rw [int64MaxNat]; omega
  simp only [readBulkString, atoi_natDigits N hN63]
  rw [if_neg (by omega : ¬ (N : Int) = -1), if_neg (by omega : ¬ (N : Int) < 0),
    if_neg (by rw [maxBulkStringSize]; omega : ¬ (N : Int) > maxBulkStringSize),
    if_neg (by simp [Int.toNat_natCast, hlen])]
  rw [Int.toNat_natCast, List.take_left' hlen]
  have hsplit : body ++ b1 :: b2 :: tail = (body ++ [b1, b2]) ++ tail := by simp
  rw [hsplit, List.drop_left' (by simp [hlen])]

/-! ## The round-trip law -/

theorem readValue_succ_crlf (fuel : Nat) (l tail : List Nat) (h : 10 ∉ l) :
    readValue (fuel + 1) (l ++ 13 :: 10 :: tail) =
      dispatchLine (readValue fuel) l tail := by
  simp only [readValue]
  rw [readLine_crlf _ _ h]

theorem dispatchLine_plus (readElem : List Nat → Except RespErr (RedisValue × List Nat))
    (body rest : List Nat) :
    dispatchLine readElem (43 :: body) rest = .ok (.simpleString body, rest) := by
  simp [dispatchLine]

theorem dispatchLine_minus (readElem : List Nat → Except RespErr (RedisValue × List Nat))
    (body rest : List Nat) :
    dispatchLine readElem (45 :: body) rest = .ok (.errorReply body, rest) := by
  simp [dispatchLine]

theorem dispatchLine_colon (readElem : List Nat → Except RespErr (RedisValue × List Nat))
    (body rest : List Nat) :
    dispatchLine readElem (58 :: body) rest =
      (match atoi body with
       | none => .error .invalidInteger
       | some n => .ok (.integer n, rest)) := by
  simp [dispatchLine]

theorem dispatchLine_dollar (readElem : List Nat → Except RespErr (RedisValue × List Nat))
    (body rest : List Nat) :
    dispatchLine readElem (36 :: body) rest = readBulkString body rest := by
  simp [dispatchLine]

theorem dispatchLine_star (readElem : List Nat → Except RespErr (RedisValue × List Nat))
    (body rest : List Nat) :
    dispatchLine readElem (42 :: body) rest = readArray readElem body rest := by
  simp [dispatchLine]

theorem readValue_writeValue : ∀ (fuel : Nat) (V : RedisValue) (rest : List Nat),
    wfValue V = true → depthV V ≤ fuel →
    readValue fuel (writeValue V ++ rest) = .ok (V, rest) := by
  intro fuel
  induction fuel with
  | zero =>
    intro V rest _ hd
    have h1 : 1 ≤ depthV V := by cases V <;> simp [depthV]
    omega
  | succ fuel ih =>
    intro V rest hwf hd
    cases V with
    | simpleString s =>
      have hno : 10 ∉ s := by
        simp only [wfValue, List.all_eq_true] at hwf
        intro hm
        have := hwf 10 hm
        simp at this
      have hshape : writeValue (.simpleString s) ++ rest = (43 :: s) ++ 13 :: 10 :: rest := by
        simp [writeValue]
      rw [hshape, readValue_succ_crlf _ _ _ (by
        intro hm
        rcases List.mem_cons.mp hm with h43 | hm
        · omega
        · exact hno hm), dispatchLine_plus]
    | errorReply s =>
      have hno : 10 ∉ s := by
        simp only [wfValue, List.all_eq_true] at hwf
        intro hm
        have := hwf 10 hm
        simp at this
      have hshape : writeValue (.errorReply s) ++ rest = (45 :: s) ++ 13 :: 10 :: rest := by
        simp [writeValue]
      rw [hshape, readValue_succ_crlf _ _ _ (by
        intro hm
        rcases List.mem_cons.mp hm with h45 | hm
        · omega
        · exact hno hm), dispatchLine_minus]
    | integer i =>
      simp only [wfValue, Bool.and_eq_true, decide_eq_true_eq] at hwf
      have hshape : writeValue (.integer i) ++ rest =
          (58 :: formatInt i) ++ 13 :: 10 :: rest := by
        simp [writeValue]
      rw [hshape, readValue_succ_crlf _ _ _ (by
        intro hm
        rcases List.mem_cons.mp hm with h58 | hm
        · omega
        · exact formatInt_not_lf i hm), dispatchLine_colon,
        atoi_formatInt i hwf.1 hwf.2]
    | bulkString b =>
      simp only [wfValue, decide_eq_true_eq] at hwf
      have hshape : writeValue (.bulkString b) ++ rest =
          (36 :: natDigits b.length) ++ 13 :: 10 :: (b ++ 13 :: 10 :: rest) := by
        simp [writeValue]
      have hread := readBulkString_ok b.length b rest 13 10 rfl hwf
      rw [hshape, readValue_succ_crlf _ _ _ (by
        intro hm
        rcases List.mem_cons.mp hm with h36 | hm
        · omega
        · exact natDigits_not_lf _ hm), dispatchLine_dollar, hread]
    | null =>
      have hshape : writeValue .null ++ rest = ([36, 45, 49] : List Nat) ++ 13 :: 10 :: rest := by
        simp [writeValue]
      rw [hshape, readValue_succ_crlf _ _ _ (by decide), dispatchLine_dollar]
      rfl
    | array vs =>
      simp only [wfValue, Bool.and_eq_true, decide_eq_true_eq] at hwf
      have hdl : depthL vs ≤ fuel := by
        simp only [depthV] at hd
        omega
      have hshape : writeValue (.array vs) ++ rest =
          (42 :: natDigits vs.length) ++ 13 :: 10 :: (writeList vs ++ rest) := by
        simp [writeValue]
      rw [hshape, readValue_succ_crlf _ _ _ (by
        intro hm
        rcases List.mem_cons.mp hm with h42 | hm
        · omega
        · exact natDigits_not_lf _ hm), dispatchLine_star]
      have hN63 : vs.length ≤ int64MaxNat := by
        rw [maxArraySize] at hwf
        rw [int64MaxNat]
        omega
      have hlist : ∀ (ws : List RedisValue) (r : List Nat), wfList ws = true →
          depthL ws ≤ fuel →
          readListWith (readValue fuel) ws.length (writeList ws ++ r) = .ok (ws, r) := by
        intro ws
        induction ws with
        | nil => intro r _ _; simp [readListWith, writeList]
        | cons w ws ihw =>
          intro r hwfl hdlw
          simp only [wfList, Bool.and_eq_true] at hwfl
          simp only [depthL] at hdlw
          have h1 : readValue fuel (writeValue w ++ (writeList ws ++ r)) =
              .ok (w, writeList ws ++ r) :=
            ih w (writeList ws ++ r) hwfl.1 (le_trans (le_max_left _ _) hdlw)
          have hshape2 : writeList (w :: ws) ++ r = writeValue w ++ (writeList ws ++ r) := by
            simp [writeList]
          rw [hshape2]
          simp only [List.length_cons, readListWith]
          rw [h1]
          simp [ihw r hwfl.2 (le_trans (le_max_right _ _) hdlw)]
      rw [maxArraySize] at hwf
      simp only [readArray, atoi_natDigits vs.length hN63]
      rw [if_neg (by omega : ¬ (vs.length : Int) = -1),
        if_neg (by omega : ¬ (vs.length : Int) < 0),
        if_neg (by rw [maxArraySize]; omega : ¬ (vs.length : Int) > maxArraySize),
        Int.toNat_natCast]
      simp [hlist vs rest hwf.2 hdl]

theorem natDigits_ne_nil (n : Nat) : natDigits n ≠ [] := by
  rw [natDigits_eq_digitsOf]; exact digitsOf_ne_nil n

theorem one_le_natDigits_length (n : Nat) : 1 ≤ (natDigits n).length := by
  cases h : natDigits n with
  | nil => exact absurd h (natDigits_ne_nil n)
  | cons d ds => simp

mutual

theorem depthV_le_writeValue : ∀ V : RedisValue, depthV V ≤ (writeValue V).length
  | .simpleString s => by simp [depthV, writeValue]
  | .errorReply s => by simp [depthV, writeValue]
  | .integer i => by simp [depthV, writeValue]
  | .bulkString b => by simp [depthV, writeValue]
  | .null => by simp [depthV, writeValue]
  | .array vs => by
    have h := depthL_le_writeList vs
    have hnd := one_le_natDigits_length vs.length
    simp only [depthV, writeValue, List.length_cons, List.length_append]
    omega

theorem depthL_le_writeList : ∀ vs : List RedisValue, depthL vs ≤ (writeList vs).length + 1
  | [] => by simp [depthL, writeList]
  | v :: vs => by
    have h1 := depthV_le_writeValue v
    have h2 := depthL_le_writeList vs
    simp only [depthL, writeList, List.length_append]
    omega

end

theorem readValueTop_writeValue (V : RedisValue) (rest : List Nat)
    (h : wfValue V = true) :
    readValueTop (writeValue V ++ rest) = .ok (V, rest) := by
  have hd : depthV V ≤ (writeValue V ++ rest).length + 1 := by
    have := depthV_le_writeValue V
    simp only [List.length_append]
    omega
  exact readValue_writeValue ((writeValue V ++ rest).length + 1) V rest h hd

/-! ## Claim C1 -/

/-- Claim C1 (amended): for every value whose SimpleString/Error text
leaves contain no CR or LF **and** whose BulkString payloads are at most
512 MiB **and** whose Array nodes have at most 1,048,576 elements (the
`Integer` bound in `wfValue` is the `int64` field type itself), parsing
the bytes produced by `writeValue` returns exactly the value, with no
bytes left over.  In particular an empty BulkString round-trips as an
empty BulkString distinct from Null, and Null round-trips via the `$-1`
sentinel (see the witness). -/
theorem c1_roundtrip (V : RedisValue) (h : wfValue V = true) :
    readValueTop (writeValue V) = .ok (V, []) := by
  have := readValueTop_writeValue V [] h
  simpa using this

/-- Witness for C1: a concrete value exercising every constructor
round-trips; the empty BulkString is distinct from Null; Null serialises
as `$-1\r\n` (bytes `36 45 49 13 10`). -/
theorem c1_roundtrip_witness :
    wfValue rtSample = true ∧
    readValueTop (writeValue rtSample) = .ok (rtSample, []) ∧
    RedisValue.bulkString [] ≠ RedisValue.null ∧
    writeValue RedisValue.null = [36, 45, 49, 13, 10] := by
  have hwf : wfValue rtSample = true := by
    simp [rtSample, wfValue, wfList, maxBulkStringSize, maxArraySize]
  refine ⟨hwf, c1_roundtrip rtSample hwf, by simp, by simp [writeValue]⟩

theorem textLeavesClean_bulk (b : List Nat) :
    textLeavesClean (.bulkString b) = true := by
  simp [textLeavesClean]

/-- Counterexample for C1 as stated: the bulk string of 536,870,913 bytes
`a` (one byte over the 512 MiB cap) has no text leaves at all — so it
satisfies the claim's only hypothesis — and `writeValue` serialises it,
yet `readValue` rejects the serialisation with the oversize error instead
of returning the value. -/
theorem c1_counterexample :
    textLeavesClean c1CexValue = true ∧
    readValueTop (writeValue c1CexValue) = .error .bulkTooLarge := by
  constructor
  · rw [c1CexValue, textLeavesClean_bulk]
  · have hlen : (List.replicate 536870913 97).length = 536870913 :=
      List.length_replicate 536870913 97
    have hshape : writeValue c1CexValue =
        (36 :: natDigits 536870913) ++
          13 :: 10 :: (List.replicate 536870913 97 ++ [13, 10]) := by
      rw [c1CexValue, writeValue, hlen]
      simp only [List.append_assoc, List.cons_append, List.nil_append]
    have hkey : ∀ t : List Nat,
        readBulkString (natDigits 536870913) t = .error .bulkTooLarge := by
      intro t
      have hatoi : atoi (natDigits 536870913) = some 536870913 :=
        atoi_natDigits _ (by rw [int64MaxNat]; omega)
      simp only [readBulkString, hatoi]
      rw [if_neg (by norm_num : ¬ (536870913 : Int) = -1),
        if_neg (by norm_num : ¬ (536870913 : Int) < 0),
        if_pos (by rw [maxBulkStringSize]; norm_num :
          (536870913 : Int) > maxBulkStringSize)]
    rw [readValueTop, hshape, readValue_succ_crlf _ _ _ (by
      intro hm
      rcases List.mem_cons.mp hm with h36 | hm
      · omega
      · exact natDigits_not_lf _ hm), dispatchLine_dollar, hkey]


/-! ## Claims C7 and C10 -/

theorem atoi_natDigits_overflow (n : Nat) (h : int64MaxNat < n) :
    atoi (natDigits n) = none := by
  obtain ⟨d, ds, hd, h48, h57⟩ := natDigits_head n
  have hparse : parseDigits (d :: ds) = some n := by
    rw [← hd]; exact parseDigits_natDigits n
  rw [hd]
  simp only [atoi]
  rw [if_neg (by omega : ¬ d = 43), if_neg (by omega : ¬ d = 45), hparse]
  simp
  omega

/-- Claim C7 (amended): size-cap validation of length headers, before any
body byte or element is consumed.  For a bulk header with declared length
`N ≥ 0`: at most 512 MiB succeeds as soon as `N + 2` bytes are available
(first `N` kept, two more consumed); over the cap but within `int64` is
the oversize error; at least `2^63` overflows `strconv.Atoi` and is the
malformed size error instead.  An array header over 1,048,576 elements
(within `int64`) is the oversize array error, an overflowing one the
malformed array-size error; and for both frame kinds a negative declared
length other than `-1` (`-k` with `2 ≤ k ≤ 2^63`) is the malformed
negative-size error.  The array conjuncts hold for every element reader,
so no element is parsed before the cap check. -/
theorem c7_size_caps (N : Nat) (input : List Nat) :
    ((N : Int) ≤ maxBulkStringSize → N + 2 ≤ input.length →
      readBulkString (natDigits N) input =
        .ok (.bulkString (input.take N), input.drop (N + 2))) ∧
    ((N : Int) > maxBulkStringSize → N < 2 ^ 63 →
      readBulkString (natDigits N) input = .error .bulkTooLarge) ∧
    (2 ^ 63 ≤ N →
      readBulkString (natDigits N) input = .error .invalidBulkSize) ∧
    (∀ readElem, (N : Int) > maxArraySize → N < 2 ^ 63 →
      readArray readElem (natDigits N) input = .error .arrayTooLarge) ∧
    (∀ readElem, 2 ^ 63 ≤ N →
      readArray readElem (natDigits N) input = .error .invalidArraySize) ∧
    (∀ readElem (k : Nat), 2 ≤ k → k ≤ 2 ^ 63 →
      readBulkString (45 :: natDigits k) input = .error .negativeBulkSize ∧
      readArray readElem (45 :: natDigits k) input = .error .negativeArraySize) := by
  refine ⟨?_, ?_, ?_, ?_, ?_, ?_⟩
  · intro hcap hlen
    rw [maxBulkStringSize] at hcap
    have hN63 : N ≤ int64MaxNat := by rw [int64MaxNat]; omega
    simp only [readBulkString, atoi_natDigits N hN63]
    rw [if_neg (by omega : ¬ (N : Int) = -1), if_neg (by omega : ¬ (N : Int) < 0),
      if_neg (by rw [maxBulkStringSize]; omega : ¬ (N : Int) > maxBulkStringSize),
      if_neg (by simp only [Int.toNat_natCast]; omega), Int.toNat_natCast]
  · intro h1 h2
    have h2n : N < 9223372036854775808 := by norm_num at h2; exact h2
    have hN63 : N ≤ int64MaxNat := by rw [int64MaxNat]; omega
    simp only [readBulkString, atoi_natDigits N hN63]
    rw [if_neg (by rw [maxBulkStringSize] at h1; omega : ¬ (N : Int) = -1),
      if_neg (by omega : ¬ (N : Int) < 0), if_pos h1]
  · intro h
    have hn : int64MaxNat < N := by rw [int64MaxNat]; norm_num at h; omega
    simp only [readBulkString, atoi_natDigits_overflow N hn]
  · intro readElem h1 h2
    have h2n : N < 9223372036854775808 := by norm_num at h2; exact h2
    have hN63 : N ≤ int64MaxNat := by rw [int64MaxNat]; omega
    simp only [readArray, atoi_natDigits N hN63]
    rw [if_neg (by rw [maxArraySize] at h1; omega : ¬ (N : Int) = -1),
      if_neg (by omega : ¬ (N : Int) < 0), if_pos h1]
  · intro readElem h
    have hn : int64MaxNat < N := by rw [int64MaxNat]; norm_num at h; omega
    simp only [readArray, atoi_natDigits_overflow N hn]
  · intro readElem k hk2 hk63
    have hk : k ≤ int64MaxNat + 1 := by rw [int64MaxNat]; norm_num at hk63; omega
    have hatoi := atoi_negNatDigits k hk
    constructor
    · simp only [readBulkString, hatoi]
      rw [if_neg (by omega : ¬ -(k : Int) = -1), if_pos (by omega : -(k : Int) < 0)]
    · simp only [readArray, hatoi]
      rw [if_neg (by omega : ¬ -(k : Int) = -1), if_pos (by omega : -(k : Int) < 0)]

/-- Witness for C7: a length-3 bulk succeeds; 536,870,913 is oversize;
`2^63` is the malformed Atoi overflow; 1,048,577 elements is array
oversize; negative `-2` headers are the malformed negative errors. -/
theorem c7_size_caps_witness :
    readBulkString (natDigits 3) [97, 98, 99, 13, 10] =
      .ok (.bulkString [97, 98, 99], []) ∧
    readBulkString (natDigits 536870913) [] = .error .bulkTooLarge ∧
    readBulkString (natDigits (2 ^ 63)) [] = .error .invalidBulkSize ∧
    readArray (readValue 0) (natDigits 1048577) [] = .error .arrayTooLarge ∧
    readArray (readValue 0) (natDigits (2 ^ 63)) [] = .error .invalidArraySize ∧
    readBulkString (45 :: natDigits 2) [] = .error .negativeBulkSize ∧
    readArray (readValue 0) (45 :: natDigits 2) [] = .error .negativeArraySize := by
  refine ⟨?_, ?_, ?_, ?_, ?_, ?_, ?_⟩
  · rw [(c7_size_caps 3 [97, 98, 99, 13, 10]).1
      (by rw [maxBulkStringSize]; norm_num) (by norm_num)]
    rfl
  · exact (c7_size_caps 536870913 []).2.1
      (by rw [maxBulkStringSize]; norm_num) (by norm_num)
  · exact (c7_size_caps (2 ^ 63) []).2.2.1 (le_refl _)
  · exact (c7_size_caps 1048577 []).2.2.2.1 (readValue 0)
      (by rw [maxArraySize]; norm_num) (by norm_num)
  · exact (c7_size_caps (2 ^ 63) []).2.2.2.2.1 (readValue 0) (le_refl _)
  · exact ((c7_size_caps 0 []).2.2.2.2.2 (readValue 0) 2 (by norm_num)
      (by norm_num)).1
  · exact ((c7_size_caps 0 []).2.2.2.2.2 (readValue 0) 2 (by norm_num)
      (by norm_num)).2

/-- Counterexample for C7 as stated: the claim promises an oversize error
for **every** declared bulk length strictly over the cap, but the header
`$9223372036854775808` (2^63, over the cap) overflows `strconv.Atoi` and
readBulkString fails with the malformed-size error, which the spec does
not classify as OversizeFrame. -/
theorem c7_counterexample :
    readBulkString (natDigits (2 ^ 63)) [] = .error .invalidBulkSize ∧
    RespErr.isOversize .invalidBulkSize = false ∧
    (536870912 : Int) < ((2 : Int) ^ 63) := by
  refine ⟨?_, rfl, by norm_num⟩
  exact (c7_size_caps (2 ^ 63) []).2.2.1 (le_refl _)

/-- Claim C10 (confirmed): the bulk-string body terminator is never
validated.  For every declared length `N` within the cap whose header is
followed by at least `N + 2` bytes, the first `N` bytes become the
payload and the following two bytes are consumed whatever they are. -/
theorem c10_terminator_unchecked (N : Nat) (body rest : List Nat) (b1 b2 : Nat)
    (hlen : body.length = N) (hcap : (N : Int) ≤ maxBulkStringSize) :
    readBulkString (natDigits N) (body ++ b1 :: b2 :: rest) =
      .ok (.bulkString body, rest) :=
  readBulkString_ok N body rest b1 b2 hlen hcap

/-- Witness for C10: the frame `$2\r\nab` followed by the two non-CRLF
bytes `X Y` (88 89) still parses as the bulk string `ab`, consuming both
junk bytes. -/
theorem c10_terminator_unchecked_witness :
    readBulkString (natDigits 2) [97, 98, 88, 89, 99] =
      .ok (.bulkString [97, 98], [99]) :=
  c10_terminator_unchecked 2 [97, 98] [99] 88 89 rfl
    (by rw [maxBulkStringSize]; norm_num)

/-! ## Claim C6 -/

theorem argsOf_all_textual : ∀ vs : List RedisValue,
    (∀ v ∈ vs, (textOf v).isSome = true) →
    argsOf vs = .ok (vs.map fun v => (textOf v).getD []) := by
  intro vs
  induction vs with
  | nil => intro _; simp [argsOf]
  | cons v vs ih =>
    intro h
    have hv := h v (List.mem_cons_self v vs)
    obtain ⟨t, ht⟩ := Option.isSome_iff_exists.mp hv
    rw [List.map_cons]
    simp only [argsOf, ht]
    rw [ih fun w hw => h w (List.mem_cons_of_mem _ hw)]
    simp [ht]

theorem argsOf_err : ∀ vs : List RedisValue, (∃ v ∈ vs, textOf v = none) →
    ∃ e, argsOf vs = .error e := by
  intro vs
  induction vs with
  | nil => intro ⟨v, hv, _⟩; simp at hv
  | cons v vs ih =>
    intro ⟨w, hw, hnone⟩
    cases hv : textOf v with
    | none => exact ⟨.invalidArgumentType, by simp [argsOf, hv]⟩
    | some t =>
      have hwvs : w ∈ vs := by
        rcases List.mem_cons.mp hw with heq | hmem
        · subst heq; rw [hv] at hnone; cases hnone
        · exact hmem
      obtain ⟨e, he⟩ := ih ⟨w, hwvs, hnone⟩
      exact ⟨e, by simp [argsOf, hv, he]⟩

/-- Claim C6 (confirmed): once `readValue` has produced an Array of `n ≥ 1`
elements, `readCommand` succeeds exactly when every element is a
SimpleString or BulkString; it then yields the Command whose `Name` is the
text of the first element, whose `Args` are the text projections of the
remaining `n - 1` elements in order, and whose `Raw` is the original
element sequence.  If the first or any later element has another type,
`readCommand` fails. -/
theorem c6_readCommand (input : List Nat) (v0 : RedisValue) (vs : List RedisValue)
    (rest : List Nat)
    (hread : readValueTop input = .ok (.array (v0 :: vs), rest)) :
    (∀ t0, textOf v0 = some t0 → (∀ v ∈ vs, (textOf v).isSome = true) →
      readCommand input =
        .ok ({ Name := t0, Args := vs.map fun v => (textOf v).getD [],
               Raw := v0 :: vs }, rest) ∧
      (vs.map fun v => (textOf v).getD []).length = (v0 :: vs).length - 1) ∧
    (textOf v0 = none → exceptIsOk (readCommand input) = false) ∧
    ((∃ v ∈ vs, textOf v = none) → exceptIsOk (readCommand input) = false) := by
  refine ⟨?_, ?_, ?_⟩
  · intro t0 ht0 hall
    constructor
    · simp only [readCommand, hread, commandOfValue, ht0,
        argsOf_all_textual vs hall]
    · simp
  · intro ht0
    simp only [readCommand, hread, commandOfValue, ht0, exceptIsOk]
  · intro hex
    obtain ⟨e, he⟩ := argsOf_err vs hex
    cases ht0 : textOf v0 with
    | none => simp only [readCommand, hread, commandOfValue, ht0, exceptIsOk]
    | some t0 => simp only [readCommand, hread, commandOfValue, ht0, he, exceptIsOk]

/-- Witness for C6: `*3 SET +k $1 v` parses into a Command with name
`SET`, args `[k, v]` (length 3 - 1) and the original frames as `Raw`;
a frame whose first element is an Integer fails, and so does a frame
whose second element is an Integer. -/
theorem c6_readCommand_witness :
    readCommand (txt "*3\r\n$3\r\nSET\r\n+k\r\n$1\r\nv\r\n") =
      .ok ({ Name := txt "SET", Args := [txt "k", txt "v"],
             Raw := [.bulkString (txt "SET"), .simpleString (txt "k"),
                     .bulkString (txt "v")] }, []) ∧
    exceptIsOk (readCommand (txt "*2\r\n:5\r\n$1\r\nv\r\n")) = false ∧
    exceptIsOk (readCommand (txt "*2\r\n$1\r\nv\r\n:5\r\n")) = false := by
  refine ⟨?_, ?_, ?_⟩
  · exact ((c6_readCommand (txt "*3\r\n$3\r\nSET\r\n+k\r\n$1\r\nv\r\n")
      (.bulkString (txt "SET"))
      [.simpleString (txt "k"), .bulkString (txt "v")] [] (by rfl)).1
      (txt "SET") rfl (by decide)).1
  · exact (c6_readCommand (txt "*2\r\n:5\r\n$1\r\nv\r\n") (.integer 5)
      [.bulkString (txt "v")] [] (by rfl)).2.1 rfl
  · exact (c6_readCommand (txt "*2\r\n$1\r\nv\r\n:5\r\n") (.bulkString (txt "v"))
      [.integer 5] [] (by rfl)).2.2
      ⟨.integer 5, List.mem_singleton.mpr rfl, rfl⟩

/-! ## Claim C5 -/

/-- Claim C5 (amended): a command whose parsed name is the empty string is
answered with Error `ERR empty command` and the connection stays open; but
a zero-element RESP array never reaches `handleCommand` — `readCommand`
fails with the empty-command-array error, so the connection loop returns
and the connection is closed with no reply at all. -/
theorem c5_empty_command (handlers : List (List Nat × CommandHandler))
    (chain : MiddlewareChain) (conn : Connection) (input : List Nat) :
    (∀ rest, readValueTop input = .ok (.array [], rest) →
      serveStep handlers chain conn input = .closed .emptyCommandArray) ∧
    (∀ cmd rest, readCommand input = .ok (cmd, rest) → cmd.Name = [] →
      serveStep handlers chain conn input =
        .replied (.errorReply (txt "ERR empty command")) [] rest) := by
  constructor
  · intro rest hread
    simp only [serveStep, readCommand, hread, commandOfValue]
  · intro cmd rest hread hname
    simp only [serveStep, hread, handleCommand, handleCommandBody, hname]
    simp

/-- Witness for C5: with no handlers registered, the frame `*0\r\n` closes
the connection without a reply, while `*1\r\n$0\r\n\r\n` (whose parsed
name is the empty string) is answered with `ERR empty command` and the
connection stays open. -/
theorem c5_empty_command_witness :
    serveStep [] NewMiddlewareChain conn0 (txt "*0\r\n") =
      .closed .emptyCommandArray ∧
    serveStep [] NewMiddlewareChain conn0 (txt "*1\r\n$0\r\n\r\n") =
      .replied (.errorReply (txt "ERR empty command")) [] [] := by
  constructor
  · exact (c5_empty_command [] NewMiddlewareChain conn0 (txt "*0\r\n")).1 []
      (by rfl)
  · exact (c5_empty_command [] NewMiddlewareChain conn0
      (txt "*1\r\n$0\r\n\r\n")).2
      { Name := [], Args := [], Raw := [.bulkString []] } [] (by rfl) rfl

/-- Counterexample for C5 as stated: the claim promises the reply
`ERR empty command` for a well-formed zero-element array, but serving
`*0\r\n` produces no reply at all — `readCommand` fails and the connection
is closed. -/
theorem c5_counterexample :
    serveStep [] NewMiddlewareChain conn0 (txt "*0\r\n") =
      .closed .emptyCommandArray ∧
    StepResult.isReplied (serveStep [] NewMiddlewareChain conn0 (txt "*0\r\n")) =
      false :=
  ⟨rfl, rfl⟩

/-! ## Claim C2 -/

/-- Claim C2 (amended): when the handler (or a middleware) panics during
dispatch, `handleCommand` catches the panic and logs it with the command
name, and the connection is not torn down — the loop writes a reply and
continues — but the reply is the zero `RedisValue` (a SimpleString with
empty text), **not** an ErrorReply: the deferred `recover()` cannot change
the unnamed return value. -/
theorem c2_panic_recovery (handlers : List (List Nat × CommandHandler))
    (chain : MiddlewareChain) (conn : Connection) (cmd : Command) (p : GoPanic)
    (hpanic : handleCommandBody handlers chain conn cmd = .error p) :
    handleCommand handlers chain conn cmd =
      (zeroRedisValue, [.panicLogged cmd.Name p]) ∧
    (∀ input rest, readCommand input = .ok (cmd, rest) →
      serveStep handlers chain conn input =
        .replied zeroRedisValue [.panicLogged cmd.Name p] rest) ∧
    isErrorReply zeroRedisValue = false := by
  refine ⟨?_, ?_, rfl⟩
  · simp only [handleCommand, hpanic]
  · intro input rest hread
    simp only [serveStep, hread, handleCommand, hpanic]

/-- Witness for C2: the registered `BOOM` handler panics; serving
`*1\r\n$4\r\nBOOM\r\n` logs the panic with the command name and replies
with the zero value, leaving the connection open. -/
theorem c2_panic_recovery_witness :
    serveStep c2Handlers NewMiddlewareChain conn0 (txt "*1\r\n$4\r\nBOOM\r\n") =
      .replied zeroRedisValue [.panicLogged (txt "BOOM") (txt "boom")] [] := by
  exact (c2_panic_recovery c2Handlers NewMiddlewareChain conn0 c2Cmd (txt "boom")
    (by rfl)).2.1 (txt "*1\r\n$4\r\nBOOM\r\n") [] (by rfl)

/-- Counterexample for C2 as stated: the response after a handler panic is
the zero value `SimpleString ""`, which is not an ErrorReply. -/
theorem c2_counterexample :
    serveStep c2Handlers NewMiddlewareChain conn0 (txt "*1\r\n$4\r\nBOOM\r\n") =
      .replied (.simpleString []) [.panicLogged (txt "BOOM") (txt "boom")] [] ∧
    isErrorReply (.simpleString []) = false :=
  ⟨rfl, rfl⟩

/-! ## Claim C4 -/

/-- Claim C4 (amended): the default PING handler replies SimpleString
`PONG` for zero arguments and a BulkString echoing the **first** argument
for one or more arguments; there is no wrong-arity error branch. -/
theorem c4_ping (conn : Connection) (cmd : Command) :
    (cmd.Args = [] → pingHandler conn cmd = .simpleString (txt "PONG")) ∧
    (∀ a rest, cmd.Args = a :: rest → pingHandler conn cmd = .bulkString a) := by
  constructor
  · intro h; simp [pingHandler, h]
  · intro a rest h; simp [pingHandler, h]

/-- Witness for C4: `PING` replies PONG; `PING a b` replies the
BulkString `a`. -/
theorem c4_ping_witness :
    pingHandler conn0 { Name := txt "PING", Args := [], Raw := [] } =
      .simpleString (txt "PONG") ∧
    pingHandler conn0 { Name := txt "PING", Args := [txt "a", txt "b"], Raw := [] } =
      .bulkString (txt "a") :=
  ⟨(c4_ping conn0 { Name := txt "PING", Args := [], Raw := [] }).1 rfl,
   (c4_ping conn0 { Name := txt "PING", Args := [txt "a", txt "b"], Raw := [] }).2
     (txt "a") [txt "b"] rfl⟩

/-- Counterexample for C4 as stated: with two arguments the default PING
handler echoes the first argument instead of replying
`ERR wrong number of arguments for 'ping' command`. -/
theorem c4_counterexample :
    pingHandler conn0 { Name := txt "PING", Args := [txt "a", txt "b"], Raw := [] } =
      .bulkString (txt "a") ∧
    pingHandler conn0 { Name := txt "PING", Args := [txt "a", txt "b"], Raw := [] } ≠
      .errorReply (txt "ERR wrong number of arguments for 'ping' command") := by
  constructor
  · rfl
  · simp [pingHandler]

/-! ## Claim C8 -/

theorem mkChain_middlewares_aux : ∀ (ms : List Middleware) (acc : MiddlewareChain),
    (ms.foldl MiddlewareChain.Add acc).middlewares = acc.middlewares ++ ms := by
  intro ms
  induction ms with
  | nil => intro acc; simp
  | cons m ms ih =>
    intro acc
    rw [List.foldl_cons, ih]
    simp [MiddlewareChain.Add]

theorem mkChain_middlewares (ms : List Middleware) :
    (mkChain ms).middlewares = ms := by
  rw [mkChain, mkChain_middlewares_aux]
  simp [NewMiddlewareChain]

/-- Claim C8 (confirmed): for middlewares added in order by `Add`,
`Execute` makes the first-added middleware outermost — executing the chain
`M :: ms` calls `M` with `next` behaving as the execution of `ms` around
the same terminal handler — and a chain with zero middlewares returns
exactly the handler's result. -/
theorem c8_middleware_composition (conn : Connection) (cmd : Command)
    (h : CommandHandler) (m : Middleware) (ms : List Middleware) :
    (mkChain []).Execute conn cmd h = h conn cmd ∧
    (mkChain (m :: ms)).Execute conn cmd h =
      m conn cmd (fun c k => (mkChain ms).Execute c k h) := by
  constructor
  · simp only [MiddlewareChain.Execute, mkChain_middlewares]
  · simp only [MiddlewareChain.Execute, mkChain_middlewares]
    rw [List.foldr_cons]
    simp only [wrapMiddleware]
    congr 1
    funext c k
    cases ms with
    | nil => rfl
    | cons m2 ms2 => rfl

/-! ## Claim C3 -/

/-- Claim C3 (amended): a sweep with a positive idle timeout marks every
registered connection that is in state Active with `lastUsed` strictly
older than `now - idleTimeout` as **Idle** (and logs it); it initiates no
close — no connection comes out of the sweep in state Closed unless it
already was Closed. -/
theorem c3_idle_sweeper (idleTimeout now : Int) (conns : List Connection)
    (hT : 0 < idleTimeout) (c : Connection) (hc : c ∈ conns) :
    (c.state = .active → c.lastUsed < now - idleTimeout →
      { c with state := ConnState.idle } ∈
        checkIdleConnections idleTimeout now conns) ∧
    (∀ c2, c2 ∈ checkIdleConnections idleTimeout now conns →
      c2.state = .closed → ∃ d, d ∈ conns ∧ d.state = .closed) := by
  constructor
  · intro hact hold
    rw [checkIdleConnections, if_neg (by omega)]
    exact List.mem_map.mpr ⟨c, hc, by rw [if_pos ⟨hact, hold⟩]⟩
  · intro c2 h2 hclosed
    rw [checkIdleConnections, if_neg (by omega)] at h2
    obtain ⟨d, hd, hde⟩ := List.mem_map.mp h2
    by_cases hcond : d.state = .active ∧ d.lastUsed < now - idleTimeout
    · rw [if_pos hcond] at hde
      rw [← hde] at hclosed
      simp at hclosed
    · rw [if_neg hcond] at hde
      exact ⟨d, hd, by rw [hde]; exact hclosed⟩

/-- Witness for C3: with timeout 1 at time 10, the sweep marks the stale
active connection (last used at 0) as Idle. -/
theorem c3_idle_sweeper_witness :
    ({ state := ConnState.idle, lastUsed := 0, closeDone := false } : Connection) ∈
      checkIdleConnections 1 10 [conn0] :=
  (c3_idle_sweeper 1 10 [conn0] (by norm_num) conn0
    (List.mem_singleton.mpr rfl)).1 rfl (by decide)

/-- Counterexample for C3 as stated: the stale Active connection (well
past the threshold) comes out of the sweep in state Idle — it has not
gone through the close path and is not Closed. -/
theorem c3_counterexample :
    checkIdleConnections 1 10 [conn0] =
      [{ state := ConnState.idle, lastUsed := 0, closeDone := false }] ∧
    ConnState.idle ≠ ConnState.closed ∧
    conn0.state = ConnState.active ∧ conn0.lastUsed < 10 - 1 := by
  refine ⟨by decide, by decide, rfl, by decide⟩

/-! ## Claim C9 -/

/-- Claim C9 (amended): a second `Shutdown` call returns without blocking,
but only by accident of the listener: when the server had a bound
listener, the second call fails fast on re-closing the already-closed
listener and returns that error before reaching the hooks, so the hooks
are not re-run.  (When no listener was ever bound, the hooks **are**
executed a second time — see the counterexample.) -/
theorem c9_shutdown (s : GoServer) (d1 d2 : Bool)
    (h : s.listener = .opened) :
    (GoServer.Shutdown (GoServer.Shutdown s d1).2 d2).1 = .listenerCloseError ∧
    (GoServer.Shutdown (GoServer.Shutdown s d1).2 d2).2.hookRuns =
      (GoServer.Shutdown s d1).2.hookRuns := by
  have hstep : ∀ t : GoServer, t.listener = .closed → ∀ d,
      GoServer.Shutdown t d = (.listenerCloseError, { t with inShutdown := true }) := by
    intro t ht d
    simp only [GoServer.Shutdown, ht]
  have hl1 : (GoServer.Shutdown s d1).2.listener = .closed := by
    simp only [GoServer.Shutdown, h, shutdownConnsHooksWait]
    split_ifs <;> rfl
  rw [hstep _ hl1 d2]
  exact ⟨rfl, rfl⟩

/-- Witness for C9: a served server (open listener, one connection, two
hooks, tasks outstanding) shut down twice: the second call returns the
listener-close error and leaves the hook-run count unchanged. -/
theorem c9_shutdown_witness :
    (GoServer.Shutdown (GoServer.Shutdown c9ServedServer true).2 false).1 =
      .listenerCloseError ∧
    (GoServer.Shutdown (GoServer.Shutdown c9ServedServer true).2 false).2.hookRuns =
      (GoServer.Shutdown c9ServedServer true).2.hookRuns :=
  c9_shutdown c9ServedServer true false rfl

/-- Counterexample for C9 as stated: on a server that never bound a
listener (created, then shut down before `Listen`), the single registered
hook runs again on the second `Shutdown` call: the hook-run count goes
1 → 2. -/
theorem c9_counterexample :
    (GoServer.Shutdown c9Server true).2.hookRuns = 1 ∧
    (GoServer.Shutdown ((GoServer.Shutdown c9Server true).2) true).2.hookRuns = 2 ∧
    c9Server.hooks = 1 := by
  refine ⟨rfl, rfl, rfl⟩
